import Mathlib

/-!
Verification development for the natural-language-to-query core of the
Elastic Security MCP server (file `elastic-security-mcp/server.py`).

The Python source is shallowly embedded: every definition below is a direct
translation of a function, constant, or data model of the source file.
Strings are modelled as Lean `String` (lists of characters); the regular
expressions of the source are all of a restricted shape (alternations of
literal words, or a literal prefix, a greedy digit or word-character run,
and a literal follow-up), for which leftmost `re.search` semantics is
implemented directly by position-by-position scanning.  Character classes
are modelled over ASCII, which covers every constant of the source.
Python integers are modelled as `Int` (arbitrary precision, as in Python);
counts are `Nat` where the source value is necessarily non-negative.
-/

/-! ### Generic character and string helpers (Python semantics) -/

/-- ASCII whitespace, as matched by Python regular-expression class
backslash-s and stripped by `int(...)`. -/
def isPySpace (c : Char) : Bool :=
  c = ' ' || c = '\t' || c = '\n' || c = '\x0d' || c = '\x0b' || c = '\x0c'

/-- Python regular-expression word character (ASCII part): letters, digits,
underscore. -/
def isWordChar (c : Char) : Bool :=
  c.isAlphanum || c = '_'

/-- Characters admitted by the index-pattern capture class of the reverse
validator: word characters, hyphen, star. -/
def isIdxChar (c : Char) : Bool :=
  isWordChar c || c = '-' || c = '*'

/-- Substring test, the Python `in` operator on strings: true when `pat`
occurs contiguously inside `s`. -/
def containsSub (pat : List Char) : List Char → Bool
  | [] => pat.isEmpty
  | c :: rest => pat.isPrefixOf (c :: rest) || containsSub pat rest

/-- Match a literal prefix; on success return the remainder. -/
def stripPre : List Char → List Char → Option (List Char)
  | [], s => some s
  | _ :: _, [] => none
  | p :: ps, c :: cs => if c = p then stripPre ps cs else none

/-- Match a literal prefix case-insensitively (pattern given in lower case);
on success return the remainder. -/
def stripPreCI : List Char → List Char → Option (List Char)
  | [], s => some s
  | _ :: _, [] => none
  | p :: ps, c :: cs => if c.toLower = p then stripPreCI ps cs else none

/-- One attempt, at the head of `s`, of the regular-expression shape
literal-prefix, one-or-more digits (greedy), literal follow-up.  Returns the
captured digit run.  Because a shorter digit run is always followed by a
digit, greedy matching with backtracking succeeds exactly when the maximal
run is followed by the literal, so taking the maximal run is faithful. -/
def tryNumAt (pre post s : List Char) : Option (List Char) :=
  match stripPre pre s with
  | none => none
  | some r =>
    let ds := r.takeWhile Char.isDigit
    if ds.isEmpty then none
    else if post.isPrefixOf (r.dropWhile Char.isDigit) then some ds else none

/-- Leftmost search (Python `re.search`) for the numeric pattern shape of
`tryNumAt`. -/
def scanNumPat (pre post : List Char) : List Char → Option (List Char)
  | [] => none
  | c :: rest =>
    match tryNumAt pre post (c :: rest) with
    | some ds => some ds
    | none => scanNumPat pre post rest

/-- One attempt, at the head of `s`, of the shape literal-prefix,
one-or-more word characters (greedy), literal follow-up.  Returns the
captured word run; maximal-run matching is faithful for the same reason as
in `tryNumAt`. -/
def tryWordAt (pre post s : List Char) : Option (List Char) :=
  match stripPre pre s with
  | none => none
  | some r =>
    let ws := r.takeWhile isWordChar
    if ws.isEmpty then none
    else if post.isPrefixOf (r.dropWhile isWordChar) then some ws else none

/-- Leftmost search for the word pattern shape of `tryWordAt`. -/
def scanWordPat (pre post : List Char) : List Char → Option (List Char)
  | [] => none
  | c :: rest =>
    match tryWordAt pre post (c :: rest) with
    | some ws => some ws
    | none => scanWordPat pre post rest

/-- Decimal value of a digit character. -/
def digitVal (c : Char) : Nat := c.toNat - 48

/-- Value of a run of decimal digit characters (most significant first). -/
def digitsVal (ds : List Char) : Nat :=
  ds.foldl (fun a c => a * 10 + digitVal c) 0

/-- Decimal digit character for a value below ten. -/
def digitCharOf : Nat → Char
  | 0 => '0'
  | 1 => '1'
  | 2 => '2'
  | 3 => '3'
  | 4 => '4'
  | 5 => '5'
  | 6 => '6'
  | 7 => '7'
  | 8 => '8'
  | _ => '9'

/-- Fuel-driven decimal rendering of a natural number (the fuel bounds the
number of digits; `natDigits` supplies enough). -/
def natDigitsAux : Nat → Nat → List Char
  | 0, _ => []
  | fuel + 1, n =>
    if n < 10 then [digitCharOf n]
    else natDigitsAux fuel (n / 10) ++ [digitCharOf (n % 10)]

/-- Decimal digits of a natural number, the Python `str` of a non-negative
integer. -/
def natDigits (n : Nat) : List Char := natDigitsAux (n + 1) n

/-- Python `str` of an arbitrary integer. -/
def intStr (i : Int) : String :=
  if i < 0 then "-" ++ (natDigits i.natAbs).asString else (natDigits i.toNat).asString

/-- Python `int(string)`: optional surrounding ASCII whitespace, optional
sign, a non-empty digit run, nothing else.  (Underscore digit grouping is
not modelled: every string this development feeds to `int` is a token of a
split on the underscore character and so cannot contain one.) -/
def pyInt (cs : List Char) : Option Int :=
  let t := cs.dropWhile isPySpace
  let st : Int × List Char :=
    match t with
    | [] => (1, [])
    | c :: r => if c = '+' then (1, r) else if c = '-' then (-1, r) else (1, c :: r)
  let ds := st.2.takeWhile Char.isDigit
  let rest := st.2.dropWhile Char.isDigit
  if ds.isEmpty then none
  else if rest.all isPySpace then some (st.1 * (digitsVal ds : Int)) else none

/-- Python `str.split` on the underscore character. -/
def splitOnU : List Char → List (List Char)
  | [] => [[]]
  | c :: rest =>
    if c = '_' then [] :: splitOnU rest
    else
      match splitOnU rest with
      | [] => [[c]]
      | t :: ts => (c :: t) :: ts

/-- Python `str.join`. -/
def pyJoin (sep : String) : List String → String
  | [] => ""
  | [x] => x
  | x :: y :: rest => x ++ sep ++ pyJoin sep (y :: rest)

/-- Python `str.title` of a single lower-case word, as applied to the
country constants of the parser. -/
def titleWord (s : String) : String :=
  match s.data with
  | [] => ""
  | c :: cs => (c.toUpper :: cs).asString

/-- Double-quote a string, as the f-strings of the generator do. -/
def quoted (s : String) : String := "\"" ++ s ++ "\""

/-- A single-quote character, used inside diagnostic messages of the
reverse validator. -/
def squo : String := (Char.ofNat 39).toString

/-- Lower-cased character list of a query string, the `query.lower()` of
the parser (ASCII case mapping). -/
def lowerOf (q : String) : List Char := q.data.map Char.toLower

/-! ### Data model (server.py lines 26 to 34)

`QueryIntent` is the pydantic model of the source.  `filters` entries and
`aggregation` are Python dictionaries in the source; they are modelled by
records of the keys the source ever reads, each optional since the
dictionary may lack it.  Python truthiness (`if intent.category:` and
similar guards in the source treat `None`, the empty string, the empty
dictionary and the empty list as false) is modelled by the `strTruthy`,
`aggTruthy` tests below. -/

/-- One element of `QueryIntent.filters`: a dictionary with keys `field`,
`operator`, `value`. -/
structure FilterDict where
  field : Option String := none
  operator : Option String := none
  value : Option String := none
deriving DecidableEq, Repr

/-- The `aggregation` dictionary: keys `type`, `function`, `group_by`. -/
structure AggDict where
  type : Option String := none
  function : Option String := none
  group_by : Option (List String) := none
deriving DecidableEq, Repr

/-- Structured representation of query intent (pydantic `QueryIntent`). -/
structure QueryIntent where
  category : Option String := none
  outcome : Option String := none
  time_range : Option String := none
  filters : List FilterDict := []
  aggregation : Option AggDict := none
  index_pattern : Option String := none
  limit : Int := 100
deriving DecidableEq, Repr

/-- Python truthiness of an optional string: false for `None` and for the
empty string. -/
def strTruthy : Option String → Bool
  | none => false
  | some s => if s = "" then false else true

/-- Python truthiness of the optional aggregation dictionary: false for
`None` and for an empty dictionary (modelled: all recognized keys absent). -/
def aggTruthy : Option AggDict → Bool
  | none => false
  | some a =>
    if a.type = none ∧ a.function = none ∧ a.group_by = none then false else true

/-! ### Security policy (class ValidationPolicy, server.py lines 111 to 116) -/

def ValidationPolicy.ALLOWED_INDEXES : List String :=
  ["logs-auth-*", "logs-endpoint-*", "logs-network-*"]

def ValidationPolicy.MAX_TIME_RANGE_HOURS : Int := 168

def ValidationPolicy.MAX_LIMIT : Int := 1000

def ValidationPolicy.FORBIDDEN_OPERATIONS : List String := ["JOIN", "ENRICH"]

def ValidationPolicy.ALLOWED_PROTOCOLS : List String :=
  ["ssh", "rdp", "http", "https", "ftp", "smb"]

/-! ### Time-range decoding (parse_time_range, server.py lines 245 to 254) -/

/-- Second token of the underscore split of a time-range string (the
`parts[1]` of the source). -/
def secondToken (s : String) : List Char := (splitOnU s.data).getD 1 []

/-- Parse time range string to hours.  Split on the underscore, take the
second token, parse as integer; any failure yields 24. -/
def parse_time_range (s : String) : Int :=
  if s.data.contains '_' then
    if 2 ≤ (splitOnU s.data).length then
      match pyInt (secondToken s) with
      | some n => n
      | none => 24
    else 24
  else 24

/-! ### Intent validation (validate_query_intent, server.py lines 225 to 243) -/

/-- Error message of the time-range-required rule. -/
def timeRequiredMsg : String := "Time range required for safety"

/-- Error message of the time-bound rule, naming the requested and maximum
hours. -/
def timeExceedsMsg (hours : Int) : String :=
  "Time range " ++ intStr hours ++ "h exceeds maximum " ++
    intStr ValidationPolicy.MAX_TIME_RANGE_HOURS ++ "h"

/-- Validate query intent against security policies.  Returns the pair of
the validity flag (`len(errors) == 0`) and the collected error list. -/
def validate_query_intent (intent : QueryIntent) : Bool × List String :=
  let errors : List String := []
  let errors :=
    if !strTruthy intent.time_range && !aggTruthy intent.aggregation then
      errors ++ [timeRequiredMsg]
    else errors
  let errors :=
    match intent.time_range with
    | some tr =>
      if tr = "" then errors
      else
        let hours := parse_time_range tr
        if hours > ValidationPolicy.MAX_TIME_RANGE_HOURS then
          errors ++ [timeExceedsMsg hours]
        else errors
    | none => errors
  (errors.isEmpty, errors)

/-! ### Natural language parser (class NLParser, server.py lines 119 to 222)

Every pattern of the parser is either an alternation of literal words
(category, outcome patterns: a search succeeds exactly when some
alternative occurs as a substring) or has the prefix-run-suffix shape
handled by `scanNumPat` and `scanWordPat`. -/

/-- Alternatives of the authentication category pattern. -/
def CATEGORY_AUTH_WORDS : List String := ["auth", "login", "logon", "sign"]

/-- Alternatives of the process category pattern. -/
def CATEGORY_PROCESS_WORDS : List String := ["process", "spawn", "exec", "run"]

/-- Alternatives of the network category pattern. -/
def CATEGORY_NETWORK_WORDS : List String := ["network", "connection", "traffic"]

/-- Alternatives of the file category pattern. -/
def CATEGORY_FILE_WORDS : List String := ["file", "create", "delete", "modify"]

/-- Country names scanned for the geography filter, in source order. -/
def COUNTRY_NAMES : List String :=
  ["china", "russia", "iran", "usa", "uk", "germany", "france"]

/-- Protocol names scanned for the protocol filter, in source order. -/
def PROTOCOL_NAMES : List String := ["ssh", "rdp", "http", "https", "ftp", "smb"]

/-- Aggregation trigger phrases. -/
def AGG_PHRASES : List String := ["by user", "per user", "group by user"]

/-- Does any word of the list occur as a substring (alternation search)? -/
def anyContains (l : List Char) (ws : List String) : Bool :=
  ws.any (fun w => containsSub w.data l)

/-- Category detection: first matching pattern sets the category and the
derived index pattern (the file category sets no index). -/
def categoryOf (l : List Char) : Option String × Option String :=
  if anyContains l CATEGORY_AUTH_WORDS then
    (some ("authentication"), some ("logs-auth-*"))
  else if anyContains l CATEGORY_PROCESS_WORDS then
    (some ("process"), some ("logs-endpoint-*"))
  else if anyContains l CATEGORY_NETWORK_WORDS then
    (some ("network"), some ("logs-network-*"))
  else if anyContains l CATEGORY_FILE_WORDS then
    (some ("file"), none)
  else (none, none)

/-- Time-range detection, patterns tried in source order; the captured
digit run is spliced verbatim into the canonical encoding, and a day count
is multiplied by 24 first. -/
def timeRangeOf (l : List Char) : Option String :=
  match scanNumPat ("last ").data (" hour").data l with
  | some ds => some ("last_" ++ ds.asString ++ "_hours")
  | none =>
    match scanNumPat ("past ").data (" hour").data l with
    | some ds => some ("last_" ++ ds.asString ++ "_hours")
    | none =>
      match scanNumPat ("last ").data (" day").data l with
      | some ds => some ("last_" ++ (natDigits (digitsVal ds * 24)).asString ++ "_hours")
      | none =>
        if containsSub ("last day").data l then some ("last_24_hours")
        else if containsSub ("last hour").data l then some ("last_1_hours")
        else if containsSub ("today").data l then some ("last_24_hours")
        else none

/-- Outcome detection: the optional suffixes of the source patterns never
affect whether a search succeeds, so each is a substring test on its stem. -/
def outcomeOf (l : List Char) : Option String :=
  if containsSub ("success").data l then some ("success")
  else if containsSub ("fail").data l then some ("failure")
  else if containsSub ("block").data l then some ("failure")
  else if containsSub ("allow").data l then some ("success")
  else none

/-- First word of the list occurring as a substring. -/
def firstContained (l : List Char) : List String → Option String
  | [] => none
  | w :: ws => if containsSub w.data l then some w else firstContained l ws

/-- Geography filter: at most one, for the first country found. -/
def countryFilters (l : List Char) : List FilterDict :=
  match firstContained l COUNTRY_NAMES with
  | some c =>
    [{ field := some ("source.geo.country_name"), operator := some ("=="),
       value := some (titleWord c) }]
  | none => []

/-- Protocol filter: at most one, for the first protocol found. -/
def protocolFilters (l : List Char) : List FilterDict :=
  match firstContained l PROTOCOL_NAMES with
  | some p =>
    [{ field := some ("network.protocol"), operator := some ("=="),
       value := some p }]
  | none => []

/-- Aggregation detection: any trigger phrase yields the count-by-user
structure. -/
def aggOf (l : List Char) : Option AggDict :=
  if anyContains l AGG_PHRASES then
    some { type := some ("stats"), function := some ("count()"),
           group_by := some (["user.name"]) }
  else none

/-- Parent-name filter entry. -/
def parentFilterFor (v : String) : FilterDict :=
  { field := some ("process.parent.name"), operator := some ("=="),
    value := some v }

/-- Process-parent extraction, patterns tried in source order; the second
pattern captures the word together with its .exe suffix. -/
def parentFilters (l : List Char) : List FilterDict :=
  match scanWordPat ("spawned by ").data [] l with
  | some w => [parentFilterFor w.asString]
  | none =>
    match scanWordPat ("from ").data (".exe").data l with
    | some w => [parentFilterFor (w.asString ++ ".exe")]
    | none =>
      match scanWordPat [] (" process").data l with
      | some w => [parentFilterFor w.asString]
      | none => []

/-- Parse a natural-language query into a `QueryIntent` (NLParser.parse).
The source lower-cases the input, then fills each field by independent
first-match scans; filters are appended in the order geography, protocol,
process parent (the last only when the detected category is process).  The
function is total: parsing never fails, and a field whose signal is absent
keeps its default. -/
def NLParser.parse (q : String) : QueryIntent :=
  let l := lowerOf q
  let ci := categoryOf l
  { category := ci.1
    index_pattern := ci.2
    time_range := timeRangeOf l
    outcome := outcomeOf l
    filters :=
      countryFilters l ++ protocolFilters l ++
        (if ci.1 = some ("process") then parentFilters l else [])
    aggregation := aggOf l
    limit := 100 }

/-- Boolean signal: some category pattern matches. -/
def categoryMatched (l : List Char) : Bool :=
  anyContains l CATEGORY_AUTH_WORDS || anyContains l CATEGORY_PROCESS_WORDS ||
    anyContains l CATEGORY_NETWORK_WORDS || anyContains l CATEGORY_FILE_WORDS

/-- Boolean signal: some time pattern matches. -/
def timeMatched (l : List Char) : Bool :=
  (scanNumPat ("last ").data (" hour").data l).isSome ||
    (scanNumPat ("past ").data (" hour").data l).isSome ||
    (scanNumPat ("last ").data (" day").data l).isSome ||
    containsSub ("last day").data l || containsSub ("last hour").data l ||
    containsSub ("today").data l

/-- Boolean signal: some outcome pattern matches. -/
def outcomeMatched (l : List Char) : Bool :=
  containsSub ("success").data l || containsSub ("fail").data l ||
    containsSub ("block").data l || containsSub ("allow").data l

/-- Boolean signal: some process-parent pattern matches. -/
def parentMatched (l : List Char) : Bool :=
  (scanWordPat ("spawned by ").data [] l).isSome ||
    (scanWordPat ("from ").data (".exe").data l).isSome ||
    (scanWordPat [] (" process").data l).isSome

/-! ### Query generation (generate_esql, server.py lines 256 to 295) -/

/-- Source clause operand: `intent.index_pattern or "logs-*"` with Python
truthiness, so an absent or empty index pattern falls back to the
wildcard. -/
def sourceOf (intent : QueryIntent) : String :=
  match intent.index_pattern with
  | some s => if s = "" then "logs-*" else s
  | none => "logs-*"

/-- Rendering of one filter dictionary: skipped unless both the field and
the value are present and non-empty (the `if field and value` truthiness
guard of the source); the operator defaults to equality when the key is
absent. -/
def renderFilter (f : FilterDict) : Option String :=
  match f.field, f.value with
  | some fd, some v =>
    if fd = "" then none
    else if v = "" then none
    else some (fd ++ " " ++ f.operator.getD ("==") ++ " " ++ quoted v)
  | _, _ => none

/-- The WHERE conditions, in source order: time bound, category equality,
outcome equality, then the renderable filters in stored order.  Each of the
first three is guarded by Python truthiness of its field. -/
def whereCondsOf (intent : QueryIntent) : List String :=
  (match intent.time_range with
   | some tr =>
     if tr = "" then []
     else ["@timestamp >= NOW() - " ++ intStr (parse_time_range tr) ++ "h"]
   | none => [])
  ++ (match intent.category with
      | some c => if c = "" then [] else ["event.category == " ++ quoted c]
      | none => [])
  ++ (match intent.outcome with
      | some o => if o = "" then [] else ["event.outcome == " ++ quoted o]
      | none => [])
  ++ intent.filters.filterMap renderFilter

/-- The aggregation clause: produced only when the aggregation dictionary
is present with type stats; the function defaults to count(), and the BY
part appears only for a non-empty group list. -/
def aggClauseOf : Option AggDict → Option String
  | none => none
  | some a =>
    if a.type = some ("stats") then
      let fn := a.function.getD ("count()")
      match a.group_by.getD [] with
      | [] => some ("| STATS " ++ fn)
      | g :: gs => some ("| STATS " ++ fn ++ " BY " ++ pyJoin (", ") (g :: gs))
    else none

/-- Generate an ES|QL query from an intent: the source accumulates clause
strings in a list and joins them with single spaces. -/
def generate_esql (intent : QueryIntent) : String :=
  let query_parts := ["FROM " ++ sourceOf intent]
  let conds := whereCondsOf intent
  let query_parts :=
    if conds.isEmpty then query_parts
    else query_parts ++ ["| WHERE " ++ pyJoin (" AND ") conds]
  let query_parts :=
    match aggClauseOf intent.aggregation with
    | some cl => query_parts ++ [cl]
    | none => query_parts
  let query_parts := query_parts ++ ["| LIMIT " ++ intStr intent.limit]
  pyJoin (" ") query_parts

/-- The canonical time-range encoding produced by the parser extractors,
an f-string splicing the decimal hours between last and hours markers. -/
def encodeTimeRange (n : Nat) : String :=
  "last_" ++ (natDigits n).asString ++ "_hours"

/-- The human-readable explanation built by the full-translation tool
(server.py lines 496 to 507).  Python floor division by 24 is `Int.fdiv`. -/
def explanationOf (intent : QueryIntent) : String :=
  let base := "Searching " ++
    (match intent.category with
     | some c => if c = "" then "all" else c
     | none => "all") ++ " events"
  let base :=
    match intent.outcome with
    | some o => if o = "" then base else base ++ " with " ++ o ++ " outcome"
    | none => base
  let base :=
    match intent.time_range with
    | some tr =>
      if tr = "" then base
      else
        let hours := parse_time_range tr
        if hours < 24 then base ++ " from the last " ++ intStr hours ++ " hours"
        else base ++ " from the last " ++ intStr (Int.fdiv hours 24) ++ " days"
    | none => base
  if aggTruthy intent.aggregation then base ++ " grouped by user" else base

/-! ### Tool-boundary functions (server.py lines 351 to 385 and 469 to 523)

Both tools build their success envelope with `asdict(intent)`.  In the
source, `asdict` is imported from the `dataclasses` module (line 13) while
`QueryIntent` is a pydantic `BaseModel` (line 26), not a dataclass, so
that call raises `TypeError` unconditionally; the surrounding
`try/except Exception` converts the fault into a failure envelope.  The
call is modelled by an `Except` value carrying the CPython message. -/

/-- Result of `dataclasses.asdict` on a `QueryIntent` instance: always the
`TypeError` message, since the argument is not a dataclass instance. -/
def asdictQueryIntent (_ : QueryIntent) : Except String Unit :=
  Except.error ("asdict() should be called on dataclass instances")

/-- JSON envelope of the plan tool; an absent key is modelled as `none`. -/
structure PlanResult where
  success : Bool
  errors : Option (List String) := none
  intent : Option QueryIntent := none
  original_query : Option String := none
deriving DecidableEq, Repr

/-- Convert natural language to structured intent (tool nl_to_esql_plan):
parse, validate, and on success attempt to serialize the intent. -/
def nl_to_esql_plan (q : String) : PlanResult :=
  let intent := NLParser.parse q
  let v := validate_query_intent intent
  if !v.1 then { success := false, errors := some v.2, intent := none }
  else
    match asdictQueryIntent intent with
    | Except.error e => { success := false, errors := some [e], intent := none }
    | Except.ok _ =>
      { success := true, errors := some [], intent := some intent,
        original_query := some q }

/-- JSON envelope of the full-translation tool; an absent key is `none`.
The validation-failure branch populates `errors`, the exception branch
populates the single `error` string, as in the source. -/
structure TranslateResult where
  success : Bool
  errors : Option (List String) := none
  error : Option String := none
  query : Option String := none
  explanation : Option String := none
  intent : Option QueryIntent := none
  original_query : Option String := none
deriving DecidableEq, Repr

/-- Complete translation from natural language to validated ES|QL (tool
translate_nl_to_esql): parse, validate, generate, explain, then attempt to
serialize the intent into the success envelope. -/
def translate_nl_to_esql (q : String) : TranslateResult :=
  let intent := NLParser.parse q
  let v := validate_query_intent intent
  if !v.1 then
    { success := false, errors := some v.2, query := none, explanation := none }
  else
    let esql := generate_esql intent
    let expl := explanationOf intent
    match asdictQueryIntent intent with
    | Except.error e =>
      { success := false, error := some e, query := none, explanation := none }
    | Except.ok _ =>
      { success := true, query := some esql, explanation := some expl,
        intent := some intent, original_query := some q }

/-! ### Reverse validation (validate_esql_query, server.py lines 417 to 467) -/

/-- One attempt of the FROM-clause pattern: FROM (case-insensitive), then
one or more whitespace characters, then a captured non-empty run of index
characters. -/
def tryFromAt (s : List Char) : Option (List Char) :=
  match stripPreCI ("from").data s with
  | none => none
  | some r =>
    let ws := r.takeWhile isPySpace
    if ws.isEmpty then none
    else
      let idx := (r.dropWhile isPySpace).takeWhile isIdxChar
      if idx.isEmpty then none else some idx

/-- Leftmost search for the FROM-clause pattern. -/
def scanFrom : List Char → Option (List Char)
  | [] => none
  | c :: rest =>
    match tryFromAt (c :: rest) with
    | some idx => some idx
    | none => scanFrom rest

/-- One attempt of the time-expression pattern: literal NOW(), optional
whitespace, a minus sign, optional whitespace, captured digits, then h. -/
def tryNowAt (s : List Char) : Option (List Char) :=
  match stripPre ("NOW()").data s with
  | none => none
  | some r =>
    match r.dropWhile isPySpace with
    | '-' :: r2 =>
      let r3 := r2.dropWhile isPySpace
      let ds := r3.takeWhile Char.isDigit
      if ds.isEmpty then none
      else
        match r3.dropWhile Char.isDigit with
        | 'h' :: _ => some ds
        | _ => none
    | _ => none

/-- Leftmost search for the time-expression pattern. -/
def scanNow : List Char → Option (List Char)
  | [] => none
  | c :: rest =>
    match tryNowAt (c :: rest) with
    | some ds => some ds
    | none => scanNow rest

/-- One attempt of the LIMIT pattern: LIMIT (case-insensitive), one or more
whitespace characters, captured digits. -/
def tryLimitAt (s : List Char) : Option (List Char) :=
  match stripPreCI ("limit").data s with
  | none => none
  | some r =>
    let ws := r.takeWhile isPySpace
    if ws.isEmpty then none
    else
      let ds := (r.dropWhile isPySpace).takeWhile Char.isDigit
      if ds.isEmpty then none else some ds

/-- Leftmost search for the LIMIT pattern. -/
def scanLimit : List Char → Option (List Char)
  | [] => none
  | c :: rest =>
    match tryLimitAt (c :: rest) with
    | some ds => some ds
    | none => scanLimit rest

/-- Error message for a missing FROM clause. -/
def noFromMsg : String := "No FROM clause found"

/-- Error message for a source pattern outside the allow-list. -/
def indexNotAllowedMsg (idx : String) : String :=
  "Index " ++ squo ++ idx ++ squo ++ " not in allowed list"

/-- Error message naming a forbidden operation keyword. -/
def forbiddenOpMsg (op : String) : String :=
  "Operation " ++ squo ++ op ++ squo ++ " is not allowed"

/-- Error message for an excessive time range in a raw query. -/
def reverseTimeMsg (hours : Int) : String :=
  "Time range " ++ intStr hours ++ "h exceeds maximum"

/-- Error message for an excessive LIMIT in a raw query. -/
def limitExceedsMsg (lim : Int) : String :=
  "LIMIT " ++ intStr lim ++ " exceeds maximum " ++ intStr ValidationPolicy.MAX_LIMIT

/-- JSON envelope of the reverse validator. -/
structure ReverseValidationResult where
  success : Bool
  valid : Bool
  errors : List String
  warnings : List String
  error_count : Nat
  warning_count : Nat
deriving DecidableEq, Repr

/-- Validate a raw ES|QL query string against the security policies
(tool validate_esql_query): FROM extraction and allow-list check, forbidden
operation scan on the upper-cased query, time-bound check with a
no-time-filter warning when neither a time expression nor STATS appears,
and LIMIT bound check. -/
def validate_esql_query (query : String) : ReverseValidationResult :=
  let cs := query.data
  let fromErrors :=
    match scanFrom cs with
    | none => [noFromMsg]
    | some idx =>
      if ValidationPolicy.ALLOWED_INDEXES.contains idx.asString then []
      else [indexNotAllowedMsg idx.asString]
  let csU := cs.map Char.toUpper
  let forbiddenErrors :=
    ValidationPolicy.FORBIDDEN_OPERATIONS.filterMap fun op =>
      if containsSub op.data csU then some (forbiddenOpMsg op) else none
  let timePair : List String × List String :=
    match scanNow cs with
    | some ds =>
      let hours : Int := (digitsVal ds : Int)
      if hours > ValidationPolicy.MAX_TIME_RANGE_HOURS then ([reverseTimeMsg hours], [])
      else ([], [])
    | none =>
      if containsSub ("STATS").data csU then ([], [])
      else ([], ["No time filter detected"])
  let limitErrors :=
    match scanLimit cs with
    | some ds =>
      let lim : Int := (digitsVal ds : Int)
      if lim > ValidationPolicy.MAX_LIMIT then [limitExceedsMsg lim] else []
    | none => []
  let errors := fromErrors ++ forbiddenErrors ++ timePair.1 ++ limitErrors
  let warnings := timePair.2
  { success := errors.isEmpty, valid := errors.isEmpty, errors := errors,
    warnings := warnings, error_count := errors.length,
    warning_count := warnings.length }

/-! ### Helper lemmas -/

/-- The ten decimal digit characters, as a concrete predicate. -/
def isDigitChar (c : Char) : Bool :=
  c == '0' || c == '1' || c == '2' || c == '3' || c == '4' || c == '5' ||
    c == '6' || c == '7' || c == '8' || c == '9'

lemma isDigitChar_cases {c : Char} (h : isDigitChar c = true) :
    c = '0' ∨ c = '1' ∨ c = '2' ∨ c = '3' ∨ c = '4' ∨ c = '5' ∨ c = '6' ∨
      c = '7' ∨ c = '8' ∨ c = '9' := by
  simp [isDigitChar] at h
  tauto

lemma isDigitChar_props {c : Char} (h : isDigitChar c = true) :
    c.isDigit = true ∧ isPySpace c = false ∧ c ≠ '+' ∧ c ≠ '-' ∧ c ≠ '_' := by
  rcases isDigitChar_cases h with rfl | rfl | rfl | rfl | rfl | rfl | rfl | rfl | rfl | rfl <;>
    exact (by decide)

lemma digitCharOf_mem (d : Nat) : isDigitChar (digitCharOf d) = true := by
  rcases d with _ | _ | _ | _ | _ | _ | _ | _ | _ | d <;> rfl

lemma digitVal_digitCharOf {d : Nat} (h : d < 10) : digitVal (digitCharOf d) = d := by
  interval_cases d <;> rfl

lemma digitsVal_append_singleton (xs : List Char) (c : Char) :
    digitsVal (xs ++ [c]) = 10 * digitsVal xs + digitVal c := by
  simp [digitsVal, List.foldl_append]
  omega

lemma natDigitsAux_spec : ∀ fuel n, n < fuel →
    (natDigitsAux fuel n).all isDigitChar = true ∧ natDigitsAux fuel n ≠ [] ∧
      digitsVal (natDigitsAux fuel n) = n := by
  intro fuel
  induction fuel with
  | zero => intro n h; exact absurd h (Nat.not_lt_zero n)
  | succ fuel ih =>
    intro n h
    by_cases h10 : n < 10
    · refine ⟨?_, ?_, ?_⟩ <;> simp only [natDigitsAux, if_pos h10]
      · simp [digitCharOf_mem]
      · simp
      · simpa [digitsVal] using digitVal_digitCharOf h10
    · have hd : n / 10 < n := Nat.div_lt_self (by omega) (by omega)
      have hf : n / 10 < fuel := by omega
      obtain ⟨ha, _, hv⟩ := ih (n / 10) hf
      refine ⟨?_, ?_, ?_⟩ <;> simp only [natDigitsAux, if_neg h10]
      · simp [List.all_append, ha, digitCharOf_mem]
      · simp
      · rw [digitsVal_append_singleton, hv,
          digitVal_digitCharOf (Nat.mod_lt n (by omega))]
        have := Nat.div_add_mod n 10
        omega

lemma natDigits_spec (n : Nat) :
    (natDigits n).all isDigitChar = true ∧ natDigits n ≠ [] ∧
      digitsVal (natDigits n) = n :=
  natDigitsAux_spec (n + 1) n (by omega)

lemma pyInt_digits {ds : List Char} (hne : ds ≠ []) (hall : ds.all isDigitChar = true) :
    pyInt ds = some ((digitsVal ds : Nat) : Int) := by
  rcases ds with _ | ⟨c, rest⟩
  · exact absurd rfl hne
  · rw [List.all_eq_true] at hall
    obtain ⟨_, hsp, hplus, hminus, _⟩ :=
      isDigitChar_props (hall c (List.mem_cons_self c rest))
    have hallDig : ∀ x ∈ c :: rest, x.isDigit = true :=
      fun x hx => (isDigitChar_props (hall x hx)).1
    have h1 : (c :: rest).dropWhile isPySpace = c :: rest := by
      simp [List.dropWhile_cons, hsp]
    have htake : (c :: rest).takeWhile Char.isDigit = c :: rest :=
      List.takeWhile_eq_self_iff.mpr hallDig
    have hdrop : (c :: rest).dropWhile Char.isDigit = [] :=
      List.dropWhile_eq_nil_iff.mpr hallDig
    simp only [pyInt, h1, if_neg hplus, if_neg hminus, htake, hdrop]
    simp

lemma splitOnU_ne_nil (l : List Char) : splitOnU l ≠ [] := by
  induction l with
  | nil => simp [splitOnU]
  | cons c rest ih =>
    by_cases hc : c = '_'
    · simp [splitOnU, hc]
    · simp only [splitOnU, if_neg hc]
      cases h : splitOnU rest with
      | nil => simp
      | cons t ts => simp

lemma splitOnU_no_u : ∀ {l : List Char}, '_' ∉ l → splitOnU l = [l] := by
  intro l
  induction l with
  | nil => intro _; rfl
  | cons c rest ih =>
    intro h
    rw [List.mem_cons, not_or] at h
    obtain ⟨h1, h2⟩ := h
    have hc : ¬(c = '_') := fun e => h1 e.symm
    simp only [splitOnU, if_neg hc, ih h2]

lemma splitOnU_mid (b : List Char) : ∀ {a : List Char}, '_' ∉ a →
    splitOnU (a ++ '_' :: b) = a :: splitOnU b := by
  intro a
  induction a with
  | nil => intro _; simp [splitOnU]
  | cons c a' ih =>
    intro h
    rw [List.mem_cons, not_or] at h
    obtain ⟨h1, h2⟩ := h
    have hc : ¬(c = '_') := fun e => h1 e.symm
    have hrec := ih h2
    calc splitOnU ((c :: a') ++ '_' :: b)
        = (match splitOnU (a' ++ '_' :: b) with
           | [] => [[c]]
           | t :: ts => (c :: t) :: ts) := by
          show splitOnU (c :: (a' ++ '_' :: b)) = _
          simp only [splitOnU, if_neg hc]
      _ = (c :: a') :: splitOnU b := by rw [hrec]

lemma splitOnU_length_ge_two : ∀ {l : List Char}, '_' ∈ l → 2 ≤ (splitOnU l).length := by
  intro l
  induction l with
  | nil => intro h; simp at h
  | cons c rest ih =>
    intro h
    by_cases hc : c = '_'
    · simp only [splitOnU, if_pos hc, List.length_cons]
      have hne := splitOnU_ne_nil rest
      cases hs : splitOnU rest with
      | nil => exact absurd hs hne
      | cons t ts => simp [hs]
    · have hr : '_' ∈ rest := by
        rcases List.mem_cons.1 h with h1 | h1
        · exact absurd h1.symm hc
        · exact h1
      simp only [splitOnU, if_neg hc]
      cases hs : splitOnU rest with
      | nil => exact absurd hs (splitOnU_ne_nil rest)
      | cons t ts =>
        have := ih hr
        rw [hs] at this
        simpa using this

lemma space_pipe_where (x : String) :
    (" " : String) ++ ("| WHERE " ++ x) = " | WHERE " ++ x := by
  rw [← String.append_assoc]
  rfl

lemma space_pipe_limit (x : String) :
    (" " : String) ++ ("| LIMIT " ++ x) = " | LIMIT " ++ x := by
  rw [← String.append_assoc]
  rfl

/-- Flattened form of the generator output: the joined clause list equals
the direct concatenation of source clause, optional WHERE clause, optional
aggregation clause, and the always-present LIMIT clause. -/
lemma generate_esql_flat (intent : QueryIntent) :
    generate_esql intent =
      "FROM " ++ sourceOf intent ++
        (if whereCondsOf intent = [] then ""
         else " | WHERE " ++ pyJoin (" AND ") (whereCondsOf intent)) ++
        (match aggClauseOf intent.aggregation with
         | some cl => " " ++ cl
         | none => "") ++
        " | LIMIT " ++ intStr intent.limit := by
  rcases hw : whereCondsOf intent with _ | ⟨c0, cs⟩ <;>
    rcases ha : aggClauseOf intent.aggregation with _ | cl <;>
      simp [generate_esql, hw, ha, pyJoin, String.append_assoc,
        String.append_empty, String.empty_append, space_pipe_where,
        space_pipe_limit]

lemma categoryOf_file_snd {l : List Char} (h : (categoryOf l).1 = some ("file")) :
    (categoryOf l).2 = none := by
  unfold categoryOf at h ⊢
  split_ifs at h ⊢ <;> first | rfl | exact absurd h (by decide)

lemma isSome_false_eq_none {α : Type} {o : Option α} (h : o.isSome = false) : o = none := by
  cases o with
  | none => rfl
  | some v => simp at h

lemma data_asString (l : List Char) : (l.asString).data = l := rfl

/-! ### Claim theorems -/

/-- C1: for every QueryIntent whose time_range and aggregation are both
absent, validate_query_intent returns is_valid false and the error list
contains the time-range-required error; and for every intent, is_valid is
true exactly when the returned error list is empty. -/
theorem validate_requires_time_range (intent : QueryIntent) :
    (intent.time_range = none → intent.aggregation = none →
      (validate_query_intent intent).1 = false ∧
        timeRequiredMsg ∈ (validate_query_intent intent).2) ∧
    ((validate_query_intent intent).1 = true ↔
      (validate_query_intent intent).2 = []) := by
  constructor
  · intro ht ha
    simp [validate_query_intent, ht, ha, strTruthy, aggTruthy]
  · have e : (validate_query_intent intent).1 =
        (validate_query_intent intent).2.isEmpty := rfl
    rw [e]
    exact List.isEmpty_iff

/-- Witness for C1 at the all-default intent. -/
theorem validate_requires_time_range_witness :
    (validate_query_intent ({} : QueryIntent)).1 = false ∧
      timeRequiredMsg ∈ (validate_query_intent ({} : QueryIntent)).2 :=
  (validate_requires_time_range {}).1 rfl rfl

/-- Intent with a valid one-hour range and a limit above the policy
maximum. -/
def overLimitIntent : QueryIntent :=
  { time_range := some ("last_1_hours"), limit := 2000 }

/-- C2 counterexample: validate_query_intent accepts an intent whose limit
field exceeds the policy maximum of 1000 (the limit is never checked), so
the claimed invariant is false as stated. -/
theorem validate_accepts_over_limit :
    (validate_query_intent overLimitIntent).1 = true ∧
      ¬(overLimitIntent.limit ≤ ValidationPolicy.MAX_LIMIT) := by
  decide

/-- C2 amended: validation never inspects the limit field, returning the
same result for every value of limit; the parser, for its part, always
produces the default limit 100, which is non-negative and at most the
policy maximum. -/
theorem validate_ignores_limit :
    (∀ (intent : QueryIntent) (l : Int),
      validate_query_intent { intent with limit := l } =
        validate_query_intent intent) ∧
    (∀ q : String, (NLParser.parse q).limit = 100) ∧
    (0 : Int) ≤ 100 ∧ (100 : Int) ≤ ValidationPolicy.MAX_LIMIT := by
  refine ⟨?_, ?_, by decide, by decide⟩
  · intro intent l
    cases intent
    rfl
  · intro q
    rfl

/-- C3: on an input whose parsed intent passes validation, both tools hit
the TypeError raised by dataclasses.asdict on the pydantic QueryIntent and
return a failure envelope instead of the documented success envelope (the
fault is caught, so nothing crosses the tool boundary unhandled, but
success is false and the payload absent). -/
theorem tools_asdict_type_error :
    (validate_query_intent
      (NLParser.parse ("failed logins in the last 6 hours"))).1 = true ∧
    translate_nl_to_esql ("failed logins in the last 6 hours") =
      { success := false,
        error := some ("asdict() should be called on dataclass instances") } ∧
    nl_to_esql_plan ("failed logins in the last 6 hours") =
      { success := false,
        errors := some (["asdict() should be called on dataclass instances"]) } := by
  exact ⟨rfl, rfl, rfl⟩

/-- C4: for every intent whose time_range decodes to more than the maximum
168 hours, validation rejects with exactly the one error naming the
requested and maximum hours (the required-time-range rule cannot fire at
the same time, since it requires an absent time range). -/
theorem validate_rejects_long_time_range (intent : QueryIntent) (s : String)
    (h1 : intent.time_range = some s)
    (h2 : parse_time_range s > ValidationPolicy.MAX_TIME_RANGE_HOURS) :
    validate_query_intent intent =
      (false, [timeExceedsMsg (parse_time_range s)]) := by
  have hne : ¬(s = "") := by
    intro e
    rw [e] at h2
    exact absurd h2 (by decide)
  have htruthy : strTruthy (some s) = true := by simp [strTruthy, hne]
  simp [validate_query_intent, h1, htruthy, hne, h2]

/-- Witness for C4 at a 720-hour range. -/
theorem validate_rejects_long_time_range_witness :
    validate_query_intent ({ time_range := some ("last_720_hours") } : QueryIntent) =
      (false, [timeExceedsMsg (parse_time_range ("last_720_hours"))]) :=
  validate_rejects_long_time_range _ ("last_720_hours") rfl (by decide)

/-- Intent whose only filter has an empty value and whose aggregation
dictionary has a non-stats type. -/
def falsyFilterIntent : QueryIntent :=
  { filters := [{ field := some ("source.ip"), operator := some ("=="),
                  value := some ("") }],
    aggregation := some { type := some ("terms") } }

/-- C5 counterexample: the generator silently drops a stored filter triple
whose value is empty and an aggregation whose type is not stats, so the
claimed rendering (every filter triple; aggregation clause whenever set) is
false as stated. -/
theorem generate_drops_falsy_parts :
    generate_esql falsyFilterIntent = "FROM logs-* | LIMIT 100" ∧
      falsyFilterIntent.filters ≠ [] ∧ falsyFilterIntent.aggregation ≠ none := by
  decide

/-- C5 amended: for every QueryIntent the generated query is exactly the
FROM clause (index_pattern when present and non-empty, else the wildcard),
then a WHERE clause only if some condition applies, joining with AND the
conditions in the order time bound, category equality, outcome equality,
then each filter triple with present non-empty field and value in stored
order, then the aggregation clause when the aggregation is set with type
stats, then the always-present LIMIT clause using intent.limit. -/
theorem generate_esql_clause_order (intent : QueryIntent) :
    generate_esql intent =
      "FROM " ++ sourceOf intent ++
        (if whereCondsOf intent = [] then ""
         else " | WHERE " ++ pyJoin (" AND ") (whereCondsOf intent)) ++
        (match aggClauseOf intent.aggregation with
         | some cl => " " ++ cl
         | none => "") ++
        " | LIMIT " ++ intStr intent.limit :=
  generate_esql_flat intent

/-- C6: the end-to-end scenario.  Parsing the China/SSH input yields
exactly the intent with category authentication, outcome failure, time
range last_6_hours, and the country filter followed by the protocol filter;
generating from it yields the query whose WHERE clause lists the time
bound, category, outcome, country and protocol conditions in that order. -/
theorem scenario_china_ssh :
    NLParser.parse ("Show failed SSH logins from China in the last 6 hours") =
      { category := some ("authentication"),
        outcome := some ("failure"),
        time_range := some ("last_6_hours"),
        filters :=
          [{ field := some ("source.geo.country_name"), operator := some ("=="),
             value := some ("China") },
           { field := some ("network.protocol"), operator := some ("=="),
             value := some ("ssh") }],
        aggregation := none,
        index_pattern := some ("logs-auth-*"),
        limit := 100 } ∧
    generate_esql
        (NLParser.parse ("Show failed SSH logins from China in the last 6 hours")) =
      "FROM logs-auth-* | WHERE @timestamp >= NOW() - 6h AND event.category == \"authentication\" AND event.outcome == \"failure\" AND source.geo.country_name == \"China\" AND network.protocol == \"ssh\" | LIMIT 100" := by
  exact ⟨rfl, rfl⟩

/-- C7: decoding the canonical encoding of any positive hour count returns
that count, and any malformed time-range string (no underscore delimiter,
or a second token that does not parse as an integer) decodes to the default
24. -/
theorem time_range_roundtrip_and_default :
    (∀ n : Nat, 0 < n → parse_time_range (encodeTimeRange n) = (n : Int)) ∧
    (∀ s : String, s.data.contains '_' = false → parse_time_range s = 24) ∧
    (∀ s : String, pyInt (secondToken s) = none → parse_time_range s = 24) := by
  refine ⟨?_, ?_, ?_⟩
  · intro n _
    obtain ⟨hall, hne, hval⟩ := natDigits_spec n
    have hnotu : '_' ∉ natDigits n := by
      intro hmem
      rw [List.all_eq_true] at hall
      exact (isDigitChar_props (hall _ hmem)).2.2.2.2 rfl
    have hdata : (encodeTimeRange n).data =
        ['l', 'a', 's', 't'] ++ '_' :: (natDigits n ++ '_' :: ("hours").data) := by
      simp [encodeTimeRange, String.data_append, data_asString]
    have hsplit : splitOnU (encodeTimeRange n).data =
        [['l', 'a', 's', 't'], natDigits n, ("hours").data] := by
      rw [hdata, splitOnU_mid _ (by decide), splitOnU_mid _ hnotu,
        splitOnU_no_u (by decide)]
    have hpi : pyInt (secondToken (encodeTimeRange n)) = some ((digitsVal (natDigits n) : Nat) : Int) := by
      rw [secondToken, hsplit]
      exact pyInt_digits hne hall
    rw [parse_time_range, if_pos ?hc]
    case hc => rw [hdata]; simp
    rw [if_pos ?hl]
    case hl => rw [hsplit]; simp
    rw [hpi, hval]
  · intro s h
    have hm : '_' ∉ s.data := by simpa using h
    rw [parse_time_range, if_neg ?hnc]
    case hnc => simp [hm]
  · intro s h
    rw [parse_time_range]
    split_ifs
    · rw [h]
    · rfl
    · rfl

/-- Witness for C7: the round trip at 6 hours, a delimiter-free string, and
a string whose second token is not an integer. -/
theorem time_range_roundtrip_and_default_witness :
    parse_time_range (encodeTimeRange 6) = (6 : Int) ∧
      parse_time_range ("show everything") = 24 ∧
      parse_time_range ("last_day_hours") = 24 :=
  ⟨time_range_roundtrip_and_default.1 6 (by decide),
   time_range_roundtrip_and_default.2.1 ("show everything") (by decide),
   time_range_roundtrip_and_default.2.2 ("last_day_hours") (by decide)⟩

/-- C8: for every query string on which the FROM pattern finds no match,
the reverse validator reports the missing FROM clause; and for every query
string containing the forbidden join keyword (case-insensitively, via the
upper-cased copy), it reports an error naming that keyword. -/
theorem reverse_validator_reports (q : String) :
    (scanFrom q.data = none → noFromMsg ∈ (validate_esql_query q).errors) ∧
    (containsSub ("JOIN").data (q.data.map Char.toUpper) = true →
      forbiddenOpMsg ("JOIN") ∈ (validate_esql_query q).errors) := by
  constructor
  · intro h
    simp [validate_esql_query, h]
  · intro h
    simp [validate_esql_query, ValidationPolicy.FORBIDDEN_OPERATIONS,
      List.filterMap_cons, h]

/-- Witness for C8 at a query that both lacks a FROM clause and contains
the join keyword. -/
theorem reverse_validator_reports_witness :
    noFromMsg ∈ (validate_esql_query ("SELECT JOIN")).errors ∧
      forbiddenOpMsg ("JOIN") ∈ (validate_esql_query ("SELECT JOIN")).errors :=
  ⟨(reverse_validator_reports ("SELECT JOIN")).1 (by decide),
   (reverse_validator_reports ("SELECT JOIN")).2 (by decide)⟩

/-- C9: parsing is total by construction (NLParser.parse is a function into
QueryIntent), and whenever the patterns of a signal category all fail the
corresponding field keeps its default: category and index unset, time range
unset, outcome unset, filters empty, aggregation unset; the limit is always
the default 100. -/
theorem parse_total_defaults (q : String) :
    (categoryMatched (lowerOf q) = false →
      (NLParser.parse q).category = none ∧ (NLParser.parse q).index_pattern = none) ∧
    (timeMatched (lowerOf q) = false → (NLParser.parse q).time_range = none) ∧
    (outcomeMatched (lowerOf q) = false → (NLParser.parse q).outcome = none) ∧
    (firstContained (lowerOf q) COUNTRY_NAMES = none →
      firstContained (lowerOf q) PROTOCOL_NAMES = none →
      parentMatched (lowerOf q) = false → (NLParser.parse q).filters = []) ∧
    (anyContains (lowerOf q) AGG_PHRASES = false →
      (NLParser.parse q).aggregation = none) ∧
    (NLParser.parse q).limit = 100 := by
  refine ⟨?_, ?_, ?_, ?_, ?_, rfl⟩
  · intro h
    simp only [categoryMatched, Bool.or_eq_false_iff] at h
    obtain ⟨⟨⟨h1, h2⟩, h3⟩, h4⟩ := h
    have hco : categoryOf (lowerOf q) = (none, none) := by
      simp [categoryOf, h1, h2, h3, h4]
    constructor
    · show (categoryOf (lowerOf q)).1 = none
      rw [hco]
    · show (categoryOf (lowerOf q)).2 = none
      rw [hco]
  · intro h
    simp only [timeMatched, Bool.or_eq_false_iff] at h
    obtain ⟨⟨⟨⟨⟨e1, e2⟩, e3⟩, e4⟩, e5⟩, e6⟩ := h
    have n1 := isSome_false_eq_none e1
    have n2 := isSome_false_eq_none e2
    have n3 := isSome_false_eq_none e3
    show timeRangeOf (lowerOf q) = none
    simp [timeRangeOf, n1, n2, n3, e4, e5, e6]
  · intro h
    simp only [outcomeMatched, Bool.or_eq_false_iff] at h
    obtain ⟨⟨⟨o1, o2⟩, o3⟩, o4⟩ := h
    show outcomeOf (lowerOf q) = none
    simp [outcomeOf, o1, o2, o3, o4]
  · intro hc hp hpm
    simp only [parentMatched, Bool.or_eq_false_iff] at hpm
    obtain ⟨⟨p1, p2⟩, p3⟩ := hpm
    have w1 := isSome_false_eq_none p1
    have w2 := isSome_false_eq_none p2
    have w3 := isSome_false_eq_none p3
    show countryFilters (lowerOf q) ++ protocolFilters (lowerOf q) ++
        (if (categoryOf (lowerOf q)).1 = some ("process")
         then parentFilters (lowerOf q) else []) = []
    simp [countryFilters, protocolFilters, parentFilters, hc, hp, w1, w2, w3]
  · intro h
    show aggOf (lowerOf q) = none
    simp [aggOf, h]

/-- Witness for C9 at an input matching no pattern at all. -/
theorem parse_total_defaults_witness :
    (NLParser.parse ("zzz zz")).category = none ∧
      (NLParser.parse ("zzz zz")).index_pattern = none ∧
      (NLParser.parse ("zzz zz")).time_range = none ∧
      (NLParser.parse ("zzz zz")).outcome = none ∧
      (NLParser.parse ("zzz zz")).filters = [] ∧
      (NLParser.parse ("zzz zz")).aggregation = none ∧
      (NLParser.parse ("zzz zz")).limit = 100 := by
  obtain ⟨hcat, htime, hout, hfil, hagg, hlim⟩ := parse_total_defaults ("zzz zz")
  obtain ⟨g1, g2⟩ := hcat (by decide)
  exact ⟨g1, g2, htime (by decide), hout (by decide),
    hfil (by decide) (by decide) (by decide), hagg (by decide), hlim⟩

/-- C10: whenever the detected category is file, the parser leaves the
index pattern unset, and the generated query therefore reads from the
wildcard source logs-*. -/
theorem file_category_wildcard (q : String)
    (h : (NLParser.parse q).category = some ("file")) :
    (NLParser.parse q).index_pattern = none ∧
      ∃ rest, generate_esql (NLParser.parse q) = "FROM logs-*" ++ rest := by
  have h1 : (categoryOf (lowerOf q)).1 = some ("file") := h
  have hidx : (NLParser.parse q).index_pattern = none := categoryOf_file_snd h1
  refine ⟨hidx, ?_⟩
  have hsrc : sourceOf (NLParser.parse q) = "logs-*" := by
    simp [sourceOf, hidx]
  rw [generate_esql_flat, hsrc]
  refine ⟨(if whereCondsOf (NLParser.parse q) = [] then ""
           else " | WHERE " ++ pyJoin (" AND ") (whereCondsOf (NLParser.parse q))) ++
          (match aggClauseOf (NLParser.parse q).aggregation with
           | some cl => " " ++ cl
           | none => "") ++
          " | LIMIT " ++ intStr (NLParser.parse q).limit, ?_⟩
  rw [show ("FROM logs-*" : String) = "FROM " ++ "logs-*" from rfl]
  simp [String.append_assoc]

/-- Witness for C10 at a file-category input. -/
theorem file_category_wildcard_witness :
    (NLParser.parse ("file deleted today")).index_pattern = none ∧
      ∃ rest, generate_esql (NLParser.parse ("file deleted today")) =
        "FROM logs-*" ++ rest :=
  file_category_wildcard ("file deleted today") (by decide)
